import Mathlib

/-!
Shallow embedding of the `scratch3_knn` extension (`src/index.js`).

The extension keeps, on one object:
  * `trainTypes`   — the six display labels, initially `["A",...,"F"]`;
  * `classifier`   — the external `@tensorflow-models/knn-classifier`
    exemplar store, used through `addExample`, `clearClass`,
    `getClassExampleCount` and `predictClass`;
  * `trainResult`  — the published prediction (`undefined` until a cycle
    completes, then a string label or the number `0`);
  * `trainConfidences` — the confidence map of the last completed cycle.

Frames and the mobilenet embedding extractor are external collaborators;
they are modelled as opaque data (`Frame`) and an arbitrary function
`infer : Frame → Embedding`.  The nearest-neighbour prediction itself is
likewise external and is passed in as an arbitrary function
`predict : ExemplarStore → Embedding → PredResult`.
-/

namespace Scratch3Knn

/-- The video states of `VideoState` (src/index.js lines 44-53). -/
inductive VState where
  | off
  | on
  | onFlipped
deriving DecidableEq, Repr

/-- JavaScript values that `trainResult` and block argument comparisons
range over: `undefined`, a string, or a number (only `0` occurs). -/
inductive JSVal where
  | undef
  | str (s : String)
  | num (n : Nat)
deriving DecidableEq, Repr

/-- An image frame from the video io device, opaque to this development. -/
abbrev Frame := Nat

/-- A feature embedding (`mobilenet.infer` output), opaque numeric vector. -/
abbrev Embedding := List Int

/-- Boundary model of the external knn-classifier exemplar store: an
association list from class index to the embeddings added so far.  An entry
exists exactly for the classes trained since their last clear:
`addExample` creates or extends the entry, `clearClass` deletes it, and
`getClassExampleCount` exposes the entries as a keyed count object. -/
abbrev ExemplarStore := List (Nat × List Embedding)

/-- Lookup of a class entry in the store (first entry with the key). -/
def storeLookup (st : ExemplarStore) (i : Nat) : Option (List Embedding) :=
  match st with
  | [] => none
  | (j, es) :: rest => if j = i then some es else storeLookup rest i

/-- `classifier.addExample(e, i)`: appends `e` to class `i`'s sequence,
creating the entry when the class has none yet. -/
def addExample (st : ExemplarStore) (e : Embedding) (i : Nat) : ExemplarStore :=
  match st with
  | [] => [(i, [e])]
  | (j, es) :: rest =>
      if j = i then (j, es ++ [e]) :: rest else (j, es) :: addExample rest e i

/-- `classifier.clearClass(i)`: removes class `i`'s entry from the store. -/
def clearClass (st : ExemplarStore) (i : Nat) : ExemplarStore :=
  match st with
  | [] => []
  | (j, es) :: rest => if j = i then rest else (j, es) :: clearClass rest i

/-- The count object returned by `classifier.getClassExampleCount()`,
read at one class index: `counts[i]` is `undefined` (`none`) when the
class has no entry. -/
def getClassExampleCount (st : ExemplarStore) (i : Nat) : Option Nat :=
  (storeLookup st i).map List.length

/-- `Object.keys(counts).length`: the number of class entries present. -/
def storeNumKeys (st : ExemplarStore) : Nat := st.length

/-- The exemplar count read through the JS `|| 0` coercion, as the numeric
value the blocks observe. -/
def countAt (st : ExemplarStore) (i : Nat) : Nat :=
  (getClassExampleCount st i).getD 0

/-- `this.trainTypes.indexOf(s)`: index of the first label equal to `s`,
`none` standing for JavaScript's `-1`. -/
def indexOfLabel (types : List String) (s : String) : Option Nat :=
  match types with
  | [] => none
  | t :: rest => if t = s then some 0 else (indexOfLabel rest s).map (· + 1)

/-- `counts[index]` where `index` may be `-1` (`none`): indexing a JS
object at `-1` yields `undefined`. -/
def countsAt (st : ExemplarStore) (index : Option Nat) : Option Nat :=
  match index with
  | none => none
  | some i => getClassExampleCount st i

/-- JS falsiness of `counts[index]`: `undefined` and `0` are falsy. -/
def jsFalsyCount (c : Option Nat) : Bool :=
  match c with
  | none => true
  | some n => n == 0

/-- `Samples(args)` (src/index.js lines 725-729):
`counts[this.trainTypes.indexOf(args.STRING)] || 0`. -/
def Samples (types : List String) (st : ExemplarStore) (label : String) : Nat :=
  match countsAt st (indexOfLabel types label) with
  | none => 0
  | some n => n

/-- `resetTrain(args)` (src/index.js lines 730-743).  Returns the store
after the call together with the alert message shown, if any; the store is
returned unchanged on either alert branch. -/
def resetTrain (types : List String) (st : ExemplarStore) (label : String) :
    ExemplarStore × Option String :=
  let index := indexOfLabel types label
  if jsFalsyCount (countsAt st index) then
    (st, some "该类别无训练数据")
  else
    match index with
    | none => (st, some "未找到对应类别")
    | some i => (clearClass st i, none)

/-- The part of the extension object the classification blocks read and
write: the video state (held on the stage), the six display labels, the
exemplar store, and the published result and confidences. -/
structure KnnState where
  videoState : VState
  trainTypes : List String
  store : ExemplarStore
  trainResult : JSVal
  trainConfidences : Option (List (Nat × ℚ))
deriving DecidableEq, Repr

/-- The state right after the constructor runs (src/index.js lines 61-102):
labels `A`..`F`, a fresh empty classifier, `trainResult` still
`undefined`, no confidences published. -/
def initialKnnState (v : VState) : KnnState :=
  { videoState := v
    trainTypes := ["A", "B", "C", "D", "E", "F"]
    store := []
    trainResult := JSVal.undef
    trainConfidences := none }

/-- Outcome of one train block handler call. -/
inductive TrainOutcome where
  | alerted (msg : String)
  | crashed
  | trained
deriving DecidableEq, Repr

/-- One train block handler — `trainA` .. `trainF` (src/index.js lines
600-724) are six copies of the same body with the slot index hard-coded;
`slot` is that index.  When the video state is `off` the handler alerts
and returns without touching anything; otherwise it reads a frame
(`getFrame(...).toDataURL(...)` throws when the frame is `null`, modelled
as `crashed` with no mutation), and the `img.onload` callback infers the
embedding, appends it to the slot's class, and renames the slot's display
label to `args.STRING`. -/
def trainSlot (infer : Frame → Embedding) (slot : Nat) (label : String)
    (frame : Option Frame) (s : KnnState) : KnnState × TrainOutcome :=
  if s.videoState = VState.off then
    (s, TrainOutcome.alerted "请先打开摄像头")
  else
    match frame with
    | none => (s, TrainOutcome.crashed)
    | some f =>
        ({ s with
            store := addExample s.store (infer f) slot
            trainTypes := s.trainTypes.set slot label },
         TrainOutcome.trained)

/-- The result object of the external `classifier.predictClass`. -/
structure PredResult where
  classIndex : Nat
  confidences : List (Nat × ℚ)
deriving DecidableEq, Repr

/-- `this.trainTypes[res.classIndex] || 0` (src/index.js line 780):
indexing past the array yields `undefined` (falsy), and the empty string
is falsy; either way the published value is the number `0`, otherwise the
label string itself. -/
def publishResult (types : List String) (classIndex : Nat) : JSVal :=
  match types.get? classIndex with
  | none => JSVal.num 0
  | some s => if s = "" then JSVal.num 0 else JSVal.str s

/-- The synchronous part of `gotResult` (src/index.js lines 755-773): it
reads a frame, short-circuits (resolving with no state change) when the
count object has no keys or when no frame is available, and otherwise
registers an `img.onload` callback for the frame.  Returns the frame a
callback was registered for, or `none` on a short-circuit. -/
def gotResultStart (frame : Option Frame) (s : KnnState) : Option Frame :=
  if storeNumKeys s.store = 0 then none
  else
    match frame with
    | none => none
    | some f => some f

/-- The `img.onload` callback inside `gotResult` (src/index.js lines
774-783): infer the embedding, run `predictClass`, publish
`trainTypes[res.classIndex] || 0` as `trainResult` and the confidences as
`trainConfidences`. -/
def gotResultFinish (infer : Frame → Embedding)
    (predict : ExemplarStore → Embedding → PredResult)
    (f : Frame) (s : KnnState) : KnnState :=
  let res := predict s.store (infer f)
  { s with
      trainResult := publishResult s.trainTypes res.classIndex
      trainConfidences := some res.confidences }

/-- One whole `gotResult` cycle, run to completion: the synchronous part
followed by the onload callback when one was registered. -/
def gotResult (infer : Frame → Embedding)
    (predict : ExemplarStore → Embedding → PredResult)
    (frame : Option Frame) (s : KnnState) : KnnState :=
  match gotResultStart frame s with
  | none => s
  | some f => gotResultFinish infer predict f s

/-- `getResult` (src/index.js lines 745-747): reports `this.trainResult`. -/
def getResult (s : KnnState) : JSVal :=
  s.trainResult

/-- JavaScript strict equality between a block's string argument and a
`trainResult` value: `===` across types is false without coercion. -/
def jsStrictEqStr (s : String) (v : JSVal) : Bool :=
  match v with
  | JSVal.str t => s == t
  | _ => false

/-- `whenGetResult` (src/index.js lines 787-792): false while
`trainResult` is still `undefined`, otherwise `args.STRING === trainResult`. -/
def whenGetResult (argString : String) (s : KnnState) : Bool :=
  if s.trainResult = JSVal.undef then false
  else jsStrictEqStr argString s.trainResult

/-- The scheduler's state: the extension state plus the `img.onload`
callbacks registered by started-but-unresolved `gotResult` cycles, in
registration order, and a count of the cycles that have completed. -/
structure SchedState where
  knn : KnnState
  pendingOnloads : List Frame
  completedCycles : Nat
deriving DecidableEq, Repr

/-- One firing of the 800 ms `setInterval` callback (src/index.js lines
96-102): when the global video state is exactly `on` it invokes
`gotResult`, whose synchronous part may register an onload callback; the
callback is `async`, so the `await` delays nothing but that firing's own
continuation — later interval firings are not blocked, and there is no
flag consulted or set. -/
def stepTick (frame : Option Frame) (s : SchedState) : SchedState :=
  if s.knn.videoState = VState.on then
    match gotResultStart frame s.knn with
    | none => s
    | some f => { s with pendingOnloads := s.pendingOnloads ++ [f] }
  else s

/-- Firing of the oldest pending `img.onload` callback: runs the
prediction and publishes, completing that cycle. -/
def stepOnload (infer : Frame → Embedding)
    (predict : ExemplarStore → Embedding → PredResult)
    (s : SchedState) : SchedState :=
  match s.pendingOnloads with
  | [] => s
  | f :: rest =>
      { knn := gotResultFinish infer predict f s.knn
        pendingOnloads := rest
        completedCycles := s.completedCycles + 1 }

/-- Per-target motion state (`DEFAULT_MOTION_STATE`, src/index.js lines
134-140). -/
structure MotionState where
  motionFrameNumber : Nat
  motionAmount : ℚ
  motionDirection : ℚ
deriving DecidableEq, Repr

/-- The whole extension as the `PROJECT_RUN_START` handler sees it: the
scheduler/classifier state plus each runtime target's custom motion
state (`none` for targets that never had one). -/
structure ExtensionState where
  sched : SchedState
  targetStates : List (Option MotionState)
deriving DecidableEq, Repr

/-- The `reset` handler registered on `PROJECT_RUN_START` (src/index.js
lines 189-198): for every target that has a custom motion state it zeroes
`motionAmount` and `motionDirection`; it touches nothing else. -/
def resetHandler (s : ExtensionState) : ExtensionState :=
  { s with
      targetStates := s.targetStates.map (fun st =>
        st.map (fun m => { m with motionAmount := 0, motionDirection := 0 })) }

/-- A store mutation performed by a successful block call: `trainOp i e`
is the `addExample` a completed `trainX` handler performs on its
hard-coded slot `i` (see `trainSlot`), and `clearOp i` is the
`clearClass` a successful `resetTrain` performs on the resolved slot
(see `resetTrain`). -/
inductive StoreOp where
  | trainOp (i : Nat) (e : Embedding)
  | clearOp (i : Nat)
deriving DecidableEq, Repr

/-- Apply one store mutation. -/
def applyOp (st : ExemplarStore) : StoreOp → ExemplarStore
  | StoreOp.trainOp i e => addExample st e i
  | StoreOp.clearOp i => clearClass st i

/-- Apply a sequence of store mutations, oldest first. -/
def applyOps (st : ExemplarStore) (ops : List StoreOp) : ExemplarStore :=
  ops.foldl applyOp st

/-- Whether an operation is a clear of slot `i`. -/
def isClearOf (i : Nat) : StoreOp → Bool
  | StoreOp.clearOp j => j == i
  | _ => false

/-- Whether an operation is a train of slot `i`. -/
def isTrainOf (i : Nat) : StoreOp → Bool
  | StoreOp.trainOp j _ => j == i
  | _ => false

/-- The specification-side count: the number of train operations on slot
`i` that occur after the last clear of slot `i` (after the start of the
trace, when it was never cleared). -/
def trainsSinceLastReset (i : Nat) (ops : List StoreOp) : Nat :=
  ((ops.reverse.takeWhile (fun op => !isClearOf i op)).filter (isTrainOf i)).length

/-! ### Association-list lemmas about the exemplar store -/

theorem storeLookup_addExample_self (st : ExemplarStore) (e : Embedding) (i : Nat) :
    storeLookup (addExample st e i) i = some ((storeLookup st i).getD [] ++ [e]) := by
  induction st with
  | nil => simp [addExample, storeLookup]
  | cons hd tl ih =>
      obtain ⟨j, es⟩ := hd
      by_cases h : j = i
      · subst h
        simp [addExample, storeLookup]
      · simp [addExample, storeLookup, h, ih]

theorem storeLookup_addExample_ne (st : ExemplarStore) (e : Embedding) (i j : Nat)
    (h : j ≠ i) : storeLookup (addExample st e i) j = storeLookup st j := by
  induction st with
  | nil => simp [addExample, storeLookup, Ne.symm h]
  | cons hd tl ih =>
      obtain ⟨k, es⟩ := hd
      by_cases hk : k = i
      · subst hk
        simp [addExample, storeLookup, Ne.symm h]
      · by_cases hkj : k = j
        · subst hkj
          simp [addExample, storeLookup, hk]
        · simp [addExample, storeLookup, hk, hkj, ih]

theorem storeLookup_clearClass_ne (st : ExemplarStore) (i j : Nat)
    (h : j ≠ i) : storeLookup (clearClass st i) j = storeLookup st j := by
  induction st with
  | nil => simp [clearClass]
  | cons hd tl ih =>
      obtain ⟨k, es⟩ := hd
      by_cases hk : k = i
      · subst hk
        simp [clearClass, storeLookup, Ne.symm h]
      · simp [clearClass, storeLookup, hk, ih]

theorem storeLookup_eq_none (st : ExemplarStore) (i : Nat)
    (h : i ∉ st.map Prod.fst) : storeLookup st i = none := by
  induction st with
  | nil => rfl
  | cons hd tl ih =>
      obtain ⟨j, es⟩ := hd
      simp only [List.map_cons, List.mem_cons] at h
      push_neg at h
      simp [storeLookup, Ne.symm h.1, ih h.2]

theorem storeLookup_clearClass_self (st : ExemplarStore) (i : Nat)
    (h : (st.map Prod.fst).Nodup) : storeLookup (clearClass st i) i = none := by
  induction st with
  | nil => rfl
  | cons hd tl ih =>
      obtain ⟨j, es⟩ := hd
      simp only [List.map_cons, List.nodup_cons] at h
      by_cases hji : j = i
      · subst hji
        simpa [clearClass] using storeLookup_eq_none tl j h.1
      · simp [clearClass, storeLookup, hji, ih h.2]

theorem mem_keys_addExample (st : ExemplarStore) (e : Embedding) (i k : Nat) :
    k ∈ (addExample st e i).map Prod.fst ↔ k ∈ st.map Prod.fst ∨ k = i := by
  induction st with
  | nil => simp [addExample]
  | cons hd tl ih =>
      obtain ⟨j, es⟩ := hd
      by_cases hji : j = i
      · subst hji
        simp [addExample]
        tauto
      · simp [addExample, hji, ih]
        tauto

theorem nodup_keys_addExample (st : ExemplarStore) (e : Embedding) (i : Nat)
    (h : (st.map Prod.fst).Nodup) : ((addExample st e i).map Prod.fst).Nodup := by
  induction st with
  | nil => simp [addExample]
  | cons hd tl ih =>
      obtain ⟨j, es⟩ := hd
      rw [List.map_cons, List.nodup_cons] at h
      by_cases hji : j = i
      · subst hji
        rw [show addExample ((j, es) :: tl) e j = (j, es ++ [e]) :: tl by
              simp [addExample]]
        rw [List.map_cons, List.nodup_cons]
        exact ⟨h.1, h.2⟩
      · rw [show addExample ((j, es) :: tl) e i = (j, es) :: addExample tl e i by
              simp [addExample, hji]]
        rw [List.map_cons, List.nodup_cons]
        refine ⟨?_, ih h.2⟩
        intro hmem
        rcases (mem_keys_addExample tl e i j).mp hmem with hin | hji2
        · exact h.1 hin
        · exact hji hji2

theorem keys_clearClass_sublist (st : ExemplarStore) (i : Nat) :
    ((clearClass st i).map Prod.fst).Sublist (st.map Prod.fst) := by
  induction st with
  | nil => simp [clearClass]
  | cons hd tl ih =>
      obtain ⟨j, es⟩ := hd
      by_cases hji : j = i
      · subst hji
        simp only [clearClass, if_pos rfl, List.map_cons]
        exact List.sublist_cons_self j (tl.map Prod.fst)
      · simp only [clearClass, hji, if_false, List.map_cons]
        exact ih.cons₂ j

theorem nodup_keys_clearClass (st : ExemplarStore) (i : Nat)
    (h : (st.map Prod.fst).Nodup) : ((clearClass st i).map Prod.fst).Nodup :=
  (keys_clearClass_sublist st i).nodup h

/-! ### Count corollaries -/

theorem countAt_addExample_self (st : ExemplarStore) (e : Embedding) (i : Nat) :
    countAt (addExample st e i) i = countAt st i + 1 := by
  unfold countAt getClassExampleCount
  rw [storeLookup_addExample_self]
  cases h : storeLookup st i <;> simp [h]

theorem countAt_addExample_ne (st : ExemplarStore) (e : Embedding) (i j : Nat)
    (h : j ≠ i) : countAt (addExample st e i) j = countAt st j := by
  unfold countAt getClassExampleCount
  rw [storeLookup_addExample_ne st e i j h]

theorem countAt_clearClass_self (st : ExemplarStore) (i : Nat)
    (h : (st.map Prod.fst).Nodup) : countAt (clearClass st i) i = 0 := by
  unfold countAt getClassExampleCount
  rw [storeLookup_clearClass_self st i h]
  rfl

theorem countAt_clearClass_ne (st : ExemplarStore) (i j : Nat)
    (h : j ≠ i) : countAt (clearClass st i) j = countAt st j := by
  unfold countAt getClassExampleCount
  rw [storeLookup_clearClass_ne st i j h]

theorem nodup_keys_applyOp (st : ExemplarStore) (op : StoreOp)
    (h : (st.map Prod.fst).Nodup) : ((applyOp st op).map Prod.fst).Nodup := by
  cases op with
  | trainOp i e => exact nodup_keys_addExample st e i h
  | clearOp i => exact nodup_keys_clearClass st i h

theorem nodup_keys_applyOps (ops : List StoreOp) :
    ∀ st : ExemplarStore, (st.map Prod.fst).Nodup →
      ((applyOps st ops).map Prod.fst).Nodup := by
  induction ops with
  | nil => exact fun st h => h
  | cons op rest ih =>
      intro st h
      exact ih (applyOp st op) (nodup_keys_applyOp st op h)

theorem applyOps_append_single (st : ExemplarStore) (ops : List StoreOp)
    (op : StoreOp) : applyOps st (ops ++ [op]) = applyOp (applyOps st ops) op := by
  simp [applyOps, List.foldl_append]

theorem countAt_applyOp (st : ExemplarStore) (op : StoreOp) (i : Nat)
    (h : (st.map Prod.fst).Nodup) :
    countAt (applyOp st op) i =
      if isClearOf i op then 0
      else if isTrainOf i op then countAt st i + 1
      else countAt st i := by
  cases op with
  | trainOp j e =>
      by_cases hji : j = i
      · subst hji
        simp [applyOp, isClearOf, isTrainOf, countAt_addExample_self]
      · simp [applyOp, isClearOf, isTrainOf, hji, countAt_addExample_ne st e j i
          (Ne.symm hji)]
  | clearOp j =>
      by_cases hji : j = i
      · subst hji
        simp [applyOp, isClearOf, countAt_clearClass_self st j h]
      · simp [applyOp, isClearOf, isTrainOf, hji,
          countAt_clearClass_ne st j i (Ne.symm hji)]

theorem trainsSinceLastReset_append_single (i : Nat) (ops : List StoreOp)
    (op : StoreOp) :
    trainsSinceLastReset i (ops ++ [op]) =
      if isClearOf i op then 0
      else if isTrainOf i op then trainsSinceLastReset i ops + 1
      else trainsSinceLastReset i ops := by
  unfold trainsSinceLastReset
  rw [List.reverse_append]
  simp only [List.reverse_singleton, List.singleton_append, List.takeWhile_cons]
  by_cases hc : isClearOf i op
  · simp [hc]
  · by_cases ht : isTrainOf i op <;> simp [hc, ht, List.filter_cons]

/-- The exemplar count of slot `i`, over any run of successful store
mutations starting from the fresh classifier, is the number of trains of
slot `i` since the last clear of slot `i`. -/
theorem countAt_applyOps_eq (i : Nat) (ops : List StoreOp) :
    countAt (applyOps [] ops) i = trainsSinceLastReset i ops := by
  induction ops using List.reverseRecOn with
  | nil => rfl
  | append_singleton l op ih =>
      rw [applyOps_append_single, trainsSinceLastReset_append_single,
        countAt_applyOp (applyOps [] l) op i (nodup_keys_applyOps l [] (by simp)),
        ih]

/-! ### Label resolution lemmas -/

theorem indexOfLabel_eq_none_iff (types : List String) (label : String) :
    indexOfLabel types label = none ↔ label ∉ types := by
  induction types with
  | nil => simp [indexOfLabel]
  | cons t rest ih =>
      by_cases h : t = label
      · subst h
        simp [indexOfLabel]
      · simp [indexOfLabel, h, Ne.symm h, ih]

theorem indexOfLabel_first (types : List String) (label : String) :
    ∀ i, indexOfLabel types label = some i →
      types.get? i = some label ∧ ∀ j, j < i → types.get? j ≠ some label := by
  induction types with
  | nil => intro i h; simp [indexOfLabel] at h
  | cons t rest ih =>
      intro i h
      by_cases ht : t = label
      · subst ht
        simp [indexOfLabel] at h
        subst h
        exact ⟨rfl, fun j hj => absurd hj (Nat.not_lt_zero j)⟩
      · simp [indexOfLabel, ht] at h
        obtain ⟨k, hk, hki⟩ := h
        subst hki
        obtain ⟨h1, h2⟩ := ih k hk
        refine ⟨by simpa using h1, ?_⟩
        intro j hj
        cases j with
        | zero =>
            simp only [List.get?]
            intro hh
            exact ht (Option.some.inj hh)
        | succ m =>
            simp only [List.get?]
            exact h2 m (Nat.lt_of_succ_lt_succ hj)

/-! ### Claim theorems -/

/-- C4: `resetTrain` requires the resolved slot to exist and hold at
least one exemplar; on violation it raises the user-facing alert and
performs no mutation (the store — hence every slot's count — is
unchanged), and otherwise it clears exactly the resolved slot, leaving
every other slot's entry untouched. -/
theorem C4_resetTrain_guarded (types : List String) (st : ExemplarStore)
    (label : String) (hnd : (st.map Prod.fst).Nodup) :
    (jsFalsyCount (countsAt st (indexOfLabel types label)) = true →
      resetTrain types st label = (st, some "该类别无训练数据")) ∧
    (∀ i, indexOfLabel types label = some i → countAt st i ≠ 0 →
      resetTrain types st label = (clearClass st i, none) ∧
      countAt (clearClass st i) i = 0 ∧
      ∀ j, j ≠ i → storeLookup (clearClass st i) j = storeLookup st j) := by
  constructor
  · intro h
    simp [resetTrain, h]
  · intro i hi hcount
    have hfalsy : jsFalsyCount (countsAt st (indexOfLabel types label)) = false := by
      rw [hi]
      simp only [countsAt, countAt] at hcount ⊢
      cases hl : getClassExampleCount st i with
      | none => rw [hl] at hcount; simp at hcount
      | some n =>
          rw [hl] at hcount
          simp only [Option.getD_some] at hcount
          simp [jsFalsyCount, hcount]
    refine ⟨?_, countAt_clearClass_self st i hnd,
      fun j hj => storeLookup_clearClass_ne st i j hj⟩
    rw [hi] at hfalsy
    simp [resetTrain, hi, hfalsy]

theorem C4_witness :
    resetTrain ["A"] [(0, [[1]])] "B" = ([(0, [[1]])], some "该类别无训练数据") ∧
    resetTrain ["A"] [(0, [[1]])] "A" = ([], none) := by
  refine ⟨(C4_resetTrain_guarded ["A"] [(0, [[1]])] "B" (by decide)).1 (by decide), ?_⟩
  have h := (C4_resetTrain_guarded ["A"] [(0, [[1]])] "A" (by decide)).2 0
    (by decide) (by decide)
  simpa using h.1

/-- C7: `Samples` resolves the display label to the first slot whose
label matches it (an unmatched label yields 0) and reports that slot's
current exemplar count; over every trace of successful store mutations
from the fresh classifier, that count equals the number of trains of the
slot since its last clear. -/
theorem C7_Samples_count (types : List String) (st : ExemplarStore) (label : String) :
    (Samples types st label =
        match indexOfLabel types label with
        | none => 0
        | some i => countAt st i) ∧
    (indexOfLabel types label = none ↔ label ∉ types) ∧
    (∀ i, indexOfLabel types label = some i →
        types.get? i = some label ∧ ∀ j, j < i → types.get? j ≠ some label) ∧
    (∀ i ops, countAt (applyOps [] ops) i = trainsSinceLastReset i ops) := by
  refine ⟨?_, indexOfLabel_eq_none_iff types label, indexOfLabel_first types label,
    fun i ops => countAt_applyOps_eq i ops⟩
  cases h : indexOfLabel types label with
  | none => simp [Samples, h, countsAt]
  | some i =>
      simp only [Samples, h, countsAt, countAt]
      cases getClassExampleCount st i <;> simp

theorem C7_witness :
    Samples ["A"] (applyOps []
        [StoreOp.trainOp 0 [], StoreOp.clearOp 0, StoreOp.trainOp 0 [],
          StoreOp.trainOp 0 []]) "A" = 2 ∧
    trainsSinceLastReset 0
        [StoreOp.trainOp 0 [], StoreOp.clearOp 0, StoreOp.trainOp 0 [],
          StoreOp.trainOp 0 []] = 2 := by
  have h := C7_Samples_count ["A"]
    (applyOps []
      [StoreOp.trainOp 0 [], StoreOp.clearOp 0, StoreOp.trainOp 0 [],
        StoreOp.trainOp 0 []]) "A"
  refine ⟨?_, by decide⟩
  rw [h.1]
  decide

/-- C9: a label matching no slot's display label makes `resetTrain`
return through the empty-count alert (`counts[-1]` is `undefined`, hence
falsy) with no mutation, and the branch guarded by `index < 0` is
unreachable for every input. -/
theorem C9_unknown_label_unreachable :
    (∀ types st label, indexOfLabel types label = none →
        resetTrain types st label = (st, some "该类别无训练数据")) ∧
    (∀ types st label, (resetTrain types st label).2 ≠ some "未找到对应类别") := by
  constructor
  · intro types st label h
    simp [resetTrain, h, countsAt, jsFalsyCount]
  · intro types st label
    cases h : indexOfLabel types label with
    | none => simp [resetTrain, h, countsAt, jsFalsyCount]
    | some i =>
        by_cases hf : jsFalsyCount (countsAt st (indexOfLabel types label)) = true
        · simp [resetTrain, hf]
        · rw [h] at hf
          simp [resetTrain, h, hf]

theorem C9_witness :
    resetTrain ["A"] [(0, [[1]])] "Z" = ([(0, [[1]])], some "该类别无训练数据") :=
  C9_unknown_label_unreachable.1 ["A"] [(0, [[1]])] "Z" (by decide)

/-- C5: each train handler requires the camera to be on; when the video
state is `off` it raises the user-facing alert and mutates nothing, and
otherwise (with a frame available) it appends the frame's embedding to
the handler's slot — raising that slot's exemplar count by one and
leaving every other slot untouched — and renames the slot's display
label to the given label. -/
theorem C5_trainSlot_guarded (infer : Frame → Embedding) (slot : Nat)
    (label : String) (frame : Option Frame) (s : KnnState) :
    (s.videoState = VState.off →
      trainSlot infer slot label frame s = (s, TrainOutcome.alerted "请先打开摄像头")) ∧
    (s.videoState ≠ VState.off → ∀ f, frame = some f →
      trainSlot infer slot label frame s =
        ({ s with
            store := addExample s.store (infer f) slot
            trainTypes := s.trainTypes.set slot label }, TrainOutcome.trained) ∧
      countAt (addExample s.store (infer f) slot) slot = countAt s.store slot + 1 ∧
      (∀ j, j ≠ slot →
        storeLookup (addExample s.store (infer f) slot) j = storeLookup s.store j) ∧
      storeLookup (addExample s.store (infer f) slot) slot =
        some ((storeLookup s.store slot).getD [] ++ [infer f]) ∧
      (slot < s.trainTypes.length →
        (s.trainTypes.set slot label).get? slot = some label)) := by
  constructor
  · intro h
    simp [trainSlot, h]
  · intro h f hf
    subst hf
    refine ⟨by simp [trainSlot, h],
      countAt_addExample_self s.store (infer f) slot,
      fun j hj => storeLookup_addExample_ne s.store (infer f) slot j hj,
      storeLookup_addExample_self s.store (infer f) slot, ?_⟩
    intro hlt
    rw [List.get?_eq_getElem?, List.getElem?_set_self hlt]

theorem C5_witness :
    trainSlot (fun _ => [7]) 0 "A" (some 2) (initialKnnState VState.off) =
      (initialKnnState VState.off, TrainOutcome.alerted "请先打开摄像头") ∧
    Samples (initialKnnState VState.off).trainTypes
      (initialKnnState VState.off).store "A" = 0 ∧
    countAt (addExample (initialKnnState VState.on).store [7] 0) 0 =
      countAt (initialKnnState VState.on).store 0 + 1 := by
  refine ⟨(C5_trainSlot_guarded (fun _ => [7]) 0 "A" (some 2)
      (initialKnnState VState.off)).1 rfl, by decide, ?_⟩
  exact ((C5_trainSlot_guarded (fun _ => [7]) 0 "A" (some 2)
    (initialKnnState VState.on)).2 (by decide) 2 rfl).2.1

/-- C6: a sampling cycle short-circuits — independently of the embedding
extractor and the classifier, which are never consulted — when the store
has no class entries or the frame source yields no frame, leaving the
whole state, the published result and confidences included, unchanged. -/
theorem C6_gotResult_short_circuit (frame : Option Frame) (s : KnnState)
    (h : storeNumKeys s.store = 0 ∨ frame = none) :
    ∀ (infer : Frame → Embedding) (predict : ExemplarStore → Embedding → PredResult),
      gotResult infer predict frame s = s := by
  intro infer predict
  rcases h with h | h
  · simp [gotResult, gotResultStart, h]
  · subst h
    by_cases hk : storeNumKeys s.store = 0 <;>
      simp [gotResult, gotResultStart, hk]

theorem C6_witness :
    gotResult (fun _ => []) (fun _ _ => { classIndex := 0, confidences := [] })
      (some 1) (initialKnnState VState.on) = initialKnnState VState.on :=
  C6_gotResult_short_circuit (some 1) (initialKnnState VState.on) (Or.inl rfl)
    (fun _ => []) (fun _ _ => { classIndex := 0, confidences := [] })

/-- C8: `whenGetResult` is false whenever `trainResult` is still the
`undefined` marker, and otherwise reports exactly the strict string
equality of its argument with the published result (in particular it is
false when the published result is the number `0`). -/
theorem C8_whenGetResult_strict (argString : String) (s : KnnState) :
    (s.trainResult = JSVal.undef → whenGetResult argString s = false) ∧
    (s.trainResult ≠ JSVal.undef →
      (whenGetResult argString s = true ↔ s.trainResult = JSVal.str argString)) := by
  constructor
  · intro h
    simp [whenGetResult, h]
  · intro h
    cases hr : s.trainResult with
    | undef => exact absurd hr h
    | str t =>
        simp only [whenGetResult, hr, jsStrictEqStr]
        rw [if_neg (by simp)]
        constructor
        · intro hh
          have ht : argString = t := by simpa using hh
          subst ht
          rfl
        · intro hh
          have ht : t = argString := by simpa using hh
          subst ht
          simp
    | num n => simp [whenGetResult, hr, jsStrictEqStr]

theorem C8_witness :
    whenGetResult "A" (initialKnnState VState.on) = false ∧
    whenGetResult "A"
      { initialKnnState VState.on with trainResult := JSVal.str "A" } = true ∧
    whenGetResult "A"
      { initialKnnState VState.on with trainResult := JSVal.num 0 } = false := by
  refine ⟨(C8_whenGetResult_strict "A" (initialKnnState VState.on)).1 rfl, ?_, ?_⟩
  · exact ((C8_whenGetResult_strict "A"
      { initialKnnState VState.on with trainResult := JSVal.str "A" }).2
        (by decide)).mpr rfl
  · have h := ((C8_whenGetResult_strict "A"
      { initialKnnState VState.on with trainResult := JSVal.num 0 }).2 (by decide))
    refine Bool.eq_false_iff.mpr ?_
    intro ht
    exact absurd (h.mp ht) (by decide)

/-- C10: after a completed sampling cycle the published prediction is
the predicted slot's display label only when that label is a nonempty
(truthy) string; an empty label or a missing label entry publishes the
number `0`, which subsequent `getResult` calls report. -/
theorem C10_publish_falsy_label (infer : Frame → Embedding)
    (predict : ExemplarStore → Embedding → PredResult) (f : Frame) (s : KnnState)
    (hkeys : storeNumKeys s.store ≠ 0) :
    (∀ lbl, s.trainTypes.get? (predict s.store (infer f)).classIndex = some lbl →
      lbl ≠ "" → getResult (gotResult infer predict (some f) s) = JSVal.str lbl) ∧
    (s.trainTypes.get? (predict s.store (infer f)).classIndex = some "" →
      getResult (gotResult infer predict (some f) s) = JSVal.num 0) ∧
    (s.trainTypes.get? (predict s.store (infer f)).classIndex = none →
      getResult (gotResult infer predict (some f) s) = JSVal.num 0) := by
  have hrun : gotResult infer predict (some f) s = gotResultFinish infer predict f s := by
    simp [gotResult, gotResultStart, hkeys]
  refine ⟨?_, ?_, ?_⟩
  · intro lbl hl hne
    rw [hrun, List.get?_eq_getElem?] at *
    simp [getResult, gotResultFinish, publishResult, hl, hne]
  · intro hl
    rw [hrun, List.get?_eq_getElem?] at *
    simp [getResult, gotResultFinish, publishResult, hl]
  · intro hl
    rw [hrun, List.get?_eq_getElem?] at *
    simp [getResult, gotResultFinish, publishResult, hl]

theorem C10_witness :
    getResult (gotResult (fun _ => [])
      (fun _ _ => { classIndex := 0, confidences := [] }) (some 1)
      { videoState := VState.on, trainTypes := [""],
        store := [(0, [[1]])], trainResult := JSVal.undef,
        trainConfidences := none }) = JSVal.num 0 :=
  (C10_publish_falsy_label (fun _ => [])
    (fun _ _ => { classIndex := 0, confidences := [] }) 1
    { videoState := VState.on, trainTypes := [""],
      store := [(0, [[1]])], trainResult := JSVal.undef,
      trainConfidences := none } (by decide)).2.1 rfl

/-! ### Scheduler characterization lemmas -/

theorem gotResultStart_eq_some_iff (frame : Option Frame) (s : KnnState) (f : Frame) :
    gotResultStart frame s = some f ↔ storeNumKeys s.store ≠ 0 ∧ frame = some f := by
  by_cases hk : storeNumKeys s.store = 0
  · simp [gotResultStart, hk]
  · cases frame <;> simp [gotResultStart, hk]

theorem gotResultStart_eq_none_iff (frame : Option Frame) (s : KnnState) :
    gotResultStart frame s = none ↔ storeNumKeys s.store = 0 ∨ frame = none := by
  by_cases hk : storeNumKeys s.store = 0
  · simp [gotResultStart, hk]
  · cases frame <;> simp [gotResultStart, hk]

/-- C1 counterexample: from a state with the video on, one exemplar and a
frame available, a second tick arriving before the first cycle's onload
resolves is not dropped — it registers a second cycle (changing the
state), and both cycles run to completion, so two cycles execute, not
exactly one. -/
theorem C1_counterexample :
    let s0 : SchedState :=
      { knn := { videoState := VState.on,
                 trainTypes := ["A", "B", "C", "D", "E", "F"],
                 store := [(0, [[1]])], trainResult := JSVal.undef,
                 trainConfidences := none },
        pendingOnloads := [], completedCycles := 0 }
    (stepTick (some 7) (stepTick (some 7) s0)).pendingOnloads.length = 2 ∧
    stepTick (some 7) (stepTick (some 7) s0) ≠ stepTick (some 7) s0 ∧
    (stepOnload (fun _ => []) (fun _ _ => { classIndex := 0, confidences := [] })
      (stepOnload (fun _ => []) (fun _ _ => { classIndex := 0, confidences := [] })
        (stepTick (some 7) (stepTick (some 7) s0)))).completedCycles = 2 := by
  decide

/-- C1 (amended): the interval callback has no in-flight guard — every
tick that fires while the video state is `on`, with exemplars present
and a frame available, appends its own onload callback even when earlier
cycles are still unresolved, and each pending callback that fires
completes its own cycle and publishes its own result. -/
theorem C1_amended_no_inflight_guard (frame : Option Frame) (f : Frame)
    (s : SchedState) (hon : s.knn.videoState = VState.on)
    (hstart : gotResultStart frame s.knn = some f) :
    stepTick frame s = { s with pendingOnloads := s.pendingOnloads ++ [f] } ∧
    ∀ (infer : Frame → Embedding)
      (predict : ExemplarStore → Embedding → PredResult) (g : Frame)
      (rest : List Frame), s.pendingOnloads = g :: rest →
        (stepOnload infer predict s).completedCycles = s.completedCycles + 1 ∧
        (stepOnload infer predict s).knn = gotResultFinish infer predict g s.knn ∧
        (stepOnload infer predict s).pendingOnloads = rest := by
  constructor
  · simp [stepTick, hon, hstart]
  · intro infer predict g rest hp
    simp [stepOnload, hp]

theorem C1_amended_witness :
    (stepTick (some 7)
      { knn := { videoState := VState.on,
                 trainTypes := ["A", "B", "C", "D", "E", "F"],
                 store := [(0, [[1]])], trainResult := JSVal.undef,
                 trainConfidences := none },
        pendingOnloads := [4], completedCycles := 0 }).pendingOnloads = [4, 7] ∧
    (stepOnload (fun _ => []) (fun _ _ => { classIndex := 0, confidences := [] })
      { knn := { videoState := VState.on,
                 trainTypes := ["A", "B", "C", "D", "E", "F"],
                 store := [(0, [[1]])], trainResult := JSVal.undef,
                 trainConfidences := none },
        pendingOnloads := [4], completedCycles := 0 }).completedCycles = 1 := by
  have h := C1_amended_no_inflight_guard (some 7) 7
    { knn := { videoState := VState.on,
               trainTypes := ["A", "B", "C", "D", "E", "F"],
               store := [(0, [[1]])], trainResult := JSVal.undef,
               trainConfidences := none },
      pendingOnloads := [4], completedCycles := 0 } rfl (by decide)
  exact ⟨by rw [h.1]; rfl,
    (h.2 (fun _ => []) (fun _ _ => { classIndex := 0, confidences := [] }) 4 [] rfl).1⟩

/-- C2 counterexample: the `PROJECT_RUN_START` handler leaves a nonempty
exemplar store, a published result, and a pending (in-flight) cycle all
intact — stale exemplars and a stale result are observable after the
restart. -/
theorem C2_counterexample :
    let s : ExtensionState :=
      { sched := { knn := { videoState := VState.on,
                            trainTypes := ["X", "B", "C", "D", "E", "F"],
                            store := [(0, [[2]])], trainResult := JSVal.str "X",
                            trainConfidences := none },
                   pendingOnloads := [5], completedCycles := 1 },
        targetStates := [some { motionFrameNumber := 3, motionAmount := 4,
                                motionDirection := 5 }] }
    (resetHandler s).sched.knn.store = [(0, [[2]])] ∧
    (resetHandler s).sched.knn.store ≠ [] ∧
    (resetHandler s).sched.knn.trainResult = JSVal.str "X" ∧
    (resetHandler s).sched.pendingOnloads = [5] := by
  decide

/-- C2 (amended): on a session restart the registered handler only
zeroes each target's `motionAmount` and `motionDirection`; the exemplar
store, display labels, published result, confidences, and pending
onload callbacks are untouched and persist across the restart. -/
theorem C2_amended_reset_motion_only (s : ExtensionState) :
    (resetHandler s).sched = s.sched ∧
    (resetHandler s).targetStates = s.targetStates.map (fun st =>
      st.map (fun m =>
        { m with motionAmount := 0, motionDirection := 0 })) :=
  ⟨rfl, rfl⟩

/-- C3 counterexample: with the video state `on-flipped` — an enabled
video state — a frame available, exemplars present and nothing in
flight, the periodic tick is still a no-op: it registers no cycle and
can never replace the published result. -/
theorem C3_counterexample :
    let s : SchedState :=
      { knn := { videoState := VState.onFlipped,
                 trainTypes := ["A", "B", "C", "D", "E", "F"],
                 store := [(0, [[1]])], trainResult := JSVal.undef,
                 trainConfidences := none },
        pendingOnloads := [], completedCycles := 0 }
    stepTick (some 3) s = s ∧
    s.knn.videoState ≠ VState.off ∧
    s.pendingOnloads = [] ∧
    storeNumKeys s.knn.store ≠ 0 := by
  decide

/-- C3 (amended): a periodic tick is a no-op exactly when the video
state is not `on` (so also for the enabled state `on-flipped`), the
store has no class entries, or no frame is available — the in-flight
status plays no role; when the state is `on` with exemplars and a frame
the tick registers a cycle whose onload completion replaces the
published result and confidences. -/
theorem C3_amended_tick_noop_iff (frame : Option Frame) (s : SchedState) :
    (stepTick frame s = s ↔
      ¬(s.knn.videoState = VState.on ∧ storeNumKeys s.knn.store ≠ 0 ∧
        frame.isSome = true)) ∧
    (∀ f, s.knn.videoState = VState.on → gotResultStart frame s.knn = some f →
      stepTick frame s = { s with pendingOnloads := s.pendingOnloads ++ [f] } ∧
      ∀ (infer : Frame → Embedding)
        (predict : ExemplarStore → Embedding → PredResult),
        (gotResultFinish infer predict f s.knn).trainResult =
          publishResult s.knn.trainTypes
            (predict s.knn.store (infer f)).classIndex ∧
        (gotResultFinish infer predict f s.knn).trainConfidences =
          some (predict s.knn.store (infer f)).confidences) := by
  constructor
  · constructor
    · intro hnoop hcond
      obtain ⟨hon, hkeys, hframe⟩ := hcond
      obtain ⟨f, hf⟩ := Option.isSome_iff_exists.mp hframe
      have hstart : gotResultStart frame s.knn = some f :=
        (gotResultStart_eq_some_iff frame s.knn f).mpr ⟨hkeys, hf⟩
      rw [stepTick, if_pos hon, hstart] at hnoop
      have hlen := congrArg (fun st => st.pendingOnloads.length) hnoop
      simp at hlen
    · intro hcond
      by_cases hon : s.knn.videoState = VState.on
      · have hstart : gotResultStart frame s.knn = none := by
          rw [gotResultStart_eq_none_iff]
          by_cases hkeys : storeNumKeys s.knn.store = 0
          · exact Or.inl hkeys
          · refine Or.inr ?_
            cases hfr : frame with
            | none => rfl
            | some f => exact absurd ⟨hon, hkeys, by rw [hfr]; rfl⟩ hcond
        rw [stepTick, if_pos hon, hstart]
      · rw [stepTick, if_neg hon]
  · intro f hon hstart
    refine ⟨by rw [stepTick, if_pos hon, hstart], ?_⟩
    intro infer predict
    exact ⟨rfl, rfl⟩

theorem C3_amended_witness :
    stepTick none
      { knn := { videoState := VState.on,
                 trainTypes := ["A", "B", "C", "D", "E", "F"],
                 store := [(0, [[1]])], trainResult := JSVal.undef,
                 trainConfidences := none },
        pendingOnloads := [], completedCycles := 0 } =
      { knn := { videoState := VState.on,
                 trainTypes := ["A", "B", "C", "D", "E", "F"],
                 store := [(0, [[1]])], trainResult := JSVal.undef,
                 trainConfidences := none },
        pendingOnloads := [], completedCycles := 0 } ∧
    (stepTick (some 2)
      { knn := { videoState := VState.on,
                 trainTypes := ["A", "B", "C", "D", "E", "F"],
                 store := [(0, [[1]])], trainResult := JSVal.undef,
                 trainConfidences := none },
        pendingOnloads := [], completedCycles := 0 }).pendingOnloads = [2] := by
  constructor
  · exact ((C3_amended_tick_noop_iff none
      { knn := { videoState := VState.on,
                 trainTypes := ["A", "B", "C", "D", "E", "F"],
                 store := [(0, [[1]])], trainResult := JSVal.undef,
                 trainConfidences := none },
        pendingOnloads := [], completedCycles := 0 }).1).mpr (by decide)
  · have h := ((C3_amended_tick_noop_iff (some 2)
      { knn := { videoState := VState.on,
                 trainTypes := ["A", "B", "C", "D", "E", "F"],
                 store := [(0, [[1]])], trainResult := JSVal.undef,
                 trainConfidences := none },
        pendingOnloads := [], completedCycles := 0 }).2) 2 rfl (by decide)
    rw [h.1]
    rfl

end Scratch3Knn
